import Mathlib

/-!
# Verification of the pykrakenapi call-rate limiter and streaming client

Shallow embedding of the admission-control / retry engine of
`pykrakenapi/pykrakenapi.py` (the `crl_sleep` and `callratelimiter`
decorators together with `KrakenAPI._decrease_api_counter`) and of the
reconnecting streaming client of `pykrakenapi/websocketapi.py`.

Time is modelled by rationals (seconds).  Computation is instantaneous in
the model; the clock advances exactly at the `time.sleep` calls of the
source.  Transport calls are an oracle `ℕ → Option ε`: the value at the
k-th transport attempt is `none` when the call succeeds and `some e` when
it raises an `HTTPError`/`KrakenAPIError` carrying `e`.
-/

namespace PyKraken

/-- Python's `timedelta.seconds` field of `now - last`: the whole-second
component of the duration, i.e. the floor of the total seconds reduced
modulo one day (86400 s).  This is what `_decrease_api_counter` reads
(`(now - self.time_of_last_query).seconds`). -/
def tdSeconds (elapsed : ℚ) : ℕ :=
  (⌊elapsed⌋ % 86400).toNat

/-- Classification of a private query, the argument of the
`callratelimiter` decorator: `'ledger/trade history'` or `'other'`. -/
inductive QueryType where
  | ledgerTradeHistory
  | other
deriving DecidableEq, Repr

/-- The counter increment of the private branch of `callratelimiter`:
`incr = 2` for `'ledger/trade history'`, `incr = 1` for `'other'`. -/
def incrOf : QueryType → ℕ
  | QueryType.ledgerTradeHistory => 2
  | QueryType.other => 1

/-- The rate-limiter configuration of a `KrakenAPI` instance: `limit` and
`factor` are set from the tier in `__init__`, `retry` and `crl_sleep` are
constructor arguments. -/
structure Config where
  limit : ℕ
  factor : ℕ
  retry : ℚ
  crlSleep : ℚ
deriving DecidableEq, Repr

/-- The mutable rate-limiter state of a `KrakenAPI` instance:
`api_counter`, `time_of_last_query` and `time_of_last_public_query`.
The counter is a natural number: it starts at 0, is incremented by
integers and is clamped at 0 by `_decrease_api_counter`. -/
structure ApiState where
  apiCounter : ℕ
  timeOfLastQuery : ℚ
  timeOfLastPublicQuery : Option ℚ
deriving DecidableEq, Repr

/-- `KrakenAPI._decrease_api_counter`, read at wall-clock time `now`:
`decr = int((now - time_of_last_query).seconds / factor)`, subtract it
from `api_counter`, clamp at 0 (natural subtraction), and set
`time_of_last_query = now`. -/
def decreaseApiCounter (cfg : Config) (s : ApiState) (now : ℚ) : ApiState :=
  let decr := tdSeconds (now - s.timeOfLastQuery) / cfg.factor
  { s with
    apiCounter := s.apiCounter - decr
    timeOfLastQuery := now }

/-- The decay step as the spec words it: decrease the counter by
`floor(elapsed_seconds / decay_rate)` where `elapsed_seconds` is the full
elapsed wall-clock duration since `last_update_time` (not reduced modulo
one day), clamp at 0, update `last_update_time`.  Kept separate from
`decreaseApiCounter` to compare the code with the spec. -/
def decaySpec (cfg : Config) (s : ApiState) (now : ℚ) : ApiState :=
  let decr := (⌊(now - s.timeOfLastQuery) / (cfg.factor : ℚ)⌋).toNat
  { s with
    apiCounter := s.apiCounter - decr
    timeOfLastQuery := now }

/-- The single-shot private admission step of `callratelimiter` (the
spec's `admit(cost)`): run `_decrease_api_counter`, and if
`api_counter < limit` charge `incr` to the counter and accept, otherwise
reject (the code falls through to `raise CallRateLimitError`) without a
further counter change.  Returns `(admitted?, new state)`. -/
def admitPrivate (cfg : Config) (s : ApiState) (now : ℚ) (qt : QueryType) :
    Bool × ApiState :=
  let s1 := decreaseApiCounter cfg s now
  if s1.apiCounter < cfg.limit then
    (true, { s1 with apiCounter := s1.apiCounter + incrOf qt })
  else
    (false, s1)

/-! ## Execution model of the decorated call

A `World` is the rate-limiter state together with the wall clock, the
number of transport attempts performed so far and the times at which
those attempts were issued (appended in chronological order). -/

/-- Execution state threaded through a decorated call.  `attempts` indexes
the transport oracle; `times` records the wall-clock time of every
transport attempt. -/
structure World where
  st : ApiState
  now : ℚ
  attempts : ℕ
  times : List ℚ
deriving DecidableEq, Repr

/-- Outcome of a decorated call: normal return, `CallRateLimitError`
raised to the caller, `HTTPError`/`KrakenAPIError` raised to the caller,
or fuel exhaustion (the model's stand-in for a still-running unbounded
loop). -/
inductive Outcome (ε : Type) where
  | ok
  | crlError
  | apiError (e : ε)
  | fuelOut
deriving DecidableEq, Repr

/-- Run `_decrease_api_counter` at the current wall-clock time. -/
def decayW (cfg : Config) (w : World) : World :=
  { w with st := decreaseApiCounter cfg w.st w.now }

/-- Book-keeping for one transport attempt issued now. -/
def recordAttempt (w : World) : World :=
  { w with attempts := w.attempts + 1, times := w.times ++ [w.now] }

/-- Set `time_of_last_public_query` to the current wall-clock time. -/
def setLastPublic (w : World) : World :=
  { w with st := { w.st with timeOfLastPublicQuery := some w.now } }

/-- Add `incr` to `api_counter` (`self.api_counter += incr`). -/
def chargeCounter (incr : ℕ) (w : World) : World :=
  { w with st := { w.st with apiCounter := w.st.apiCounter + incr } }

/-- The retry loop of the private branch of `callratelimiter` (the
`retry != 0` case): `while api_counter < limit:` charge `incr`, attempt
the transport call; on success return, on `HTTPError`/`KrakenAPIError`
sleep `retry` seconds, run `_decrease_api_counter`, and loop.  When the
loop condition fails the code falls through to `raise
CallRateLimitError`. -/
def privateLoop {ε : Type} (cfg : Config) (transport : ℕ → Option ε)
    (incr : ℕ) : ℕ → World → Outcome ε × World
  | 0, w => (Outcome.fuelOut, w)
  | Nat.succ fuel, w =>
    if w.st.apiCounter < cfg.limit then
      let w1 := chargeCounter incr w
      let w2 := recordAttempt w1
      match transport w1.attempts with
      | none => (Outcome.ok, w2)
      | some _ =>
        privateLoop cfg transport incr fuel
          (decayW cfg { w2 with now := w2.now + cfg.retry })
    else
      (Outcome.crlError, w)

/-- The private branch of the `callratelimiter` wrapper: run
`_decrease_api_counter`; with `retry == 0`, if `api_counter < limit`
charge the increment and attempt the call once (any transport error
propagates), else raise `CallRateLimitError`; with `retry != 0`, enter
the retry loop. -/
def privateInner {ε : Type} (cfg : Config) (transport : ℕ → Option ε)
    (qt : QueryType) (fuel : ℕ) (w : World) : Outcome ε × World :=
  let w1 := decayW cfg w
  if cfg.retry = 0 then
    if w1.st.apiCounter < cfg.limit then
      let w2 := chargeCounter (incrOf qt) w1
      let w3 := recordAttempt w2
      match transport w2.attempts with
      | none => (Outcome.ok, w3)
      | some e => (Outcome.apiError e, w3)
    else
      (Outcome.crlError, w1)
  else
    privateLoop cfg transport (incrOf qt) fuel w1

/-- The `crl_sleep` decorator around an inner wrapped call: with
`crl_sleep == 0` run the inner call once and let everything propagate;
otherwise catch `CallRateLimitError`, sleep `crl_sleep` seconds and
resubmit, forever. -/
def crlLoop {ε : Type} (crlSleep : ℚ)
    (inner : ℕ → World → Outcome ε × World) :
    ℕ → World → Outcome ε × World
  | 0, w => (Outcome.fuelOut, w)
  | Nat.succ fuel, w =>
    match inner fuel w with
    | (Outcome.crlError, w') =>
      if crlSleep = 0 then (Outcome.crlError, w')
      else crlLoop crlSleep inner fuel { w' with now := w'.now + crlSleep }
    | (o, w') => (o, w')

/-- A private API method as decorated in the source:
`@crl_sleep` around `@callratelimiter('ledger/trade history' | 'other')`. -/
def privateCall {ε : Type} (cfg : Config) (transport : ℕ → Option ε)
    (qt : QueryType) : ℕ → World → Outcome ε × World :=
  crlLoop cfg.crlSleep (privateInner cfg transport qt)

/-- The retry loop of the public branch of `callratelimiter` (the
`retry != 0` case), with `retryP = max(retry, 1.05)`: attempt the call;
on success return, on `HTTPError`/`KrakenAPIError` sleep `retryP`
seconds, set `time_of_last_public_query` to the new current time, and
loop. -/
def publicLoop {ε : Type} (transport : ℕ → Option ε) (retryP : ℚ) :
    ℕ → World → Outcome ε × World
  | 0, w => (Outcome.fuelOut, w)
  | Nat.succ fuel, w =>
    let w1 := recordAttempt w
    match transport w.attempts with
    | none => (Outcome.ok, w1)
    | some _ =>
      publicLoop transport retryP fuel
        (setLastPublic { w1 with now := w1.now + retryP })

/-- The admitted path of the public branch: record the current time as
`time_of_last_public_query` and either attempt once (`retry == 0`,
errors propagate) or enter the public retry loop with delay
`max(retry, 1.05)`. -/
def publicAdmitted {ε : Type} (cfg : Config) (transport : ℕ → Option ε)
    (fuel : ℕ) (w : World) : Outcome ε × World :=
  let w1 := setLastPublic w
  if cfg.retry = 0 then
    let w2 := recordAttempt w1
    match transport w1.attempts with
    | none => (Outcome.ok, w2)
    | some e => (Outcome.apiError e, w2)
  else
    publicLoop transport (max cfg.retry (21 / 20)) fuel w1

/-- The public branch of the `callratelimiter('public')` wrapper: if a
previous public query is recorded and less than 1 second has elapsed
since it, raise `CallRateLimitError` (state untouched); otherwise take
the admitted path. -/
def publicInner {ε : Type} (cfg : Config) (transport : ℕ → Option ε)
    (fuel : ℕ) (w : World) : Outcome ε × World :=
  match w.st.timeOfLastPublicQuery with
  | some t0 =>
    if w.now - t0 < 1 then (Outcome.crlError, w)
    else publicAdmitted cfg transport fuel w
  | none => publicAdmitted cfg transport fuel w

/-- A public API method as decorated in the source:
`@crl_sleep` around `@callratelimiter('public')`. -/
def publicCall {ε : Type} (cfg : Config) (transport : ℕ → Option ε) :
    ℕ → World → Outcome ε × World :=
  crlLoop cfg.crlSleep (publicInner cfg transport)

/-- `sep1 ts` holds when consecutive entries of the chronological list
`ts` are at least 1 second apart (the public gate's `min_interval`). -/
def sep1 : List ℚ → Bool
  | [] => true
  | [_] => true
  | a :: b :: r => decide (a + 1 ≤ b) && sep1 (b :: r)

/-- Invariant tying the log of public transport-attempt times to the
gate state: the recorded times are pairwise at least 1 s apart
(consecutively), every recorded time is at most the recorded
`time_of_last_public_query`, and that timestamp is not in the future. -/
def timesOk (w : World) : Prop :=
  sep1 w.times = true ∧
  (∀ x ∈ w.times,
    ∃ t0, w.st.timeOfLastPublicQuery = some t0 ∧ x ≤ t0) ∧
  (∀ t0, w.st.timeOfLastPublicQuery = some t0 → t0 ≤ w.now)

/-! ## Concrete instances used in counterexamples and witnesses -/

/-- A sample configuration: tier `'Intermediate'` (`limit = 20`,
`factor = 2`) with the constructor defaults `retry = 1`,
`crl_sleep = 5`. -/
def cfgIntermediate : Config :=
  { limit := 20, factor := 2, retry := 1, crlSleep := 5 }

/-- Tier `'Intermediate'` with retrying disabled (`retry = 0`) but the
default `crl_sleep = 5`. -/
def cfgNoRetry : Config :=
  { limit := 20, factor := 2, retry := 0, crlSleep := 5 }

/-- Tier `'Intermediate'` with `retry = 2` and the default
`crl_sleep = 5`. -/
def cfgRetry2 : Config :=
  { limit := 20, factor := 2, retry := 2, crlSleep := 5 }

/-- Tier `'Intermediate'` with both retry knobs disabled
(`retry = 0`, `crl_sleep = 0`). -/
def cfgAllOff : Config :=
  { limit := 20, factor := 2, retry := 0, crlSleep := 0 }

/-- A transport oracle that succeeds on every attempt. -/
def transportOk : ℕ → Option Unit := fun _ => none

/-- A transport oracle that raises on every attempt. -/
def alwaysFail : ℕ → Option Unit := fun _ => some ()

/-- A fresh world: counters at zero, clock at 0, no public query yet. -/
def freshWorld : World :=
  { st := { apiCounter := 0, timeOfLastQuery := 0,
            timeOfLastPublicQuery := none }
    now := 0, attempts := 0, times := [] }

/-- A world whose last public query just happened (at the current
time 0), so the public gate is closed. -/
def gateClosedWorld : World :=
  { st := { apiCounter := 0, timeOfLastQuery := 0,
            timeOfLastPublicQuery := some 0 }
    now := 0, attempts := 0, times := [] }

/-- A world whose private counter sits exactly at the Intermediate
limit, so the private admission check rejects. -/
def counterFullWorld : World :=
  { st := { apiCounter := 20, timeOfLastQuery := 0,
            timeOfLastPublicQuery := none }
    now := 0, attempts := 0, times := [] }

/-! ## Reconnecting stream client (`websocketapi.py`)

The twisted `ReconnectingClientFactory` and reactor are external
collaborators (spec §6); their scheduling behaviour is modelled from the
spec's words (§4.3), while the handlers and registries of
`KrakenClientFactory`, `KrakenSocketManager` and `WssClient` are
translated from `websocketapi.py`. -/

/-- Reconnect bookkeeping of a client factory: `retries`
(`attempt_count`), the current backoff `delay`, and twisted's
`continueTrying` flag. -/
structure ReconnectState where
  retries : ℕ
  delay : ℚ
  continueTrying : Bool
deriving DecidableEq, Repr

/-- Backoff parameters.  `KrakenReconnectingClientFactory` sets
`initialDelay = 0.1`, `maxDelay = 20`, `maxRetries = 30`; the delay
growth factor is the collaborator's. -/
structure ReconnectParams where
  initialDelay : ℚ
  maxDelay : ℚ
  maxRetries : ℕ
  growth : ℚ
deriving DecidableEq, Repr

/-- The constants set by `KrakenReconnectingClientFactory`
(`initialDelay = 0.1`, `maxDelay = 20`, `maxRetries = 30`), with the
collaborator's growth factor `g`. -/
def krakenParams (g : ℚ) : ReconnectParams :=
  { initialDelay := 1 / 10, maxDelay := 20, maxRetries := 30, growth := g }

/-- Modelled from the spec: the reconnection scheduler `retry()` of the
external `ReconnectingClientFactory` collaborator (twisted; not under
`src/`).  Per spec §4.3 and §3, a reconnect attempt mutates
`reconnect_state` in place: `attempt_count += 1`; while the count has
not exceeded `max_retries` the next connection attempt is scheduled
after the current delay and `current_delay` increases up to `max_delay`;
once `attempt_count > max_retries` no further reconnection attempt is
scheduled.  Returns the new state and whether a reconnect was
scheduled. -/
def retryStep (p : ReconnectParams) (s : ReconnectState) :
    ReconnectState × Bool :=
  if s.continueTrying then
    let s1 := { s with retries := s.retries + 1 }
    if s1.retries > p.maxRetries then (s1, false)
    else ({ s1 with delay := min (s1.delay * p.growth) p.maxDelay }, true)
  else (s, false)

/-- The fixed `_reconnect_error_payload` of `KrakenClientFactory`. -/
def reconnectErrorPayload : List (String × String) :=
  [("e", "error"), ("m", "Max reconnect retries reached")]

/-- `KrakenClientFactory.clientConnectionLost` and
`clientConnectionFailed` (identical bodies): call `self.retry`, then if
`self.retries > self.maxRetries` deliver the fixed terminal error
payload to the connection's callback.  Returns the new state, whether a
reconnect was scheduled, and the payloads delivered to the callback by
this event. -/
def clientConnectionLost (p : ReconnectParams) (s : ReconnectState) :
    ReconnectState × Bool × List (List (String × String)) :=
  let r := retryStep p s
  if r.1.retries > p.maxRetries then (r.1, r.2, [reconnectErrorPayload])
  else (r.1, r.2, [])

/-- A connection's run: the factory state, whether a connection attempt
is currently live or scheduled (so that a further loss event can occur
at all), and the payloads delivered to the callback so far by the
loss handlers. -/
structure ConnRun where
  fstate : ReconnectState
  live : Bool
  delivered : List (List (String × String))
deriving DecidableEq, Repr

/-- One connection-loss/connection-failed event: only possible while an
attempt is live or scheduled; dispatches to the factory's handler. -/
def lossEventStep (p : ReconnectParams) (c : ConnRun) : ConnRun :=
  if c.live then
    let r := clientConnectionLost p c.fstate
    { fstate := r.1, live := r.2.1, delivered := c.delivered ++ r.2.2 }
  else c

/-- Process `n` loss events. -/
def runLosses (p : ReconnectParams) : ℕ → ConnRun → ConnRun
  | 0, c => c
  | Nat.succ n, c => runLosses p n (lossEventStep p c)

/-- Factory state right after a fresh `subscribe` (initial connection
attempt issued, no retries yet, `continueTrying` on). -/
def freshReconnect (p : ReconnectParams) : ReconnectState :=
  { retries := 0, delay := p.initialDelay, continueTrying := true }

/-- A fresh connection run. -/
def freshRun (p : ReconnectParams) : ConnRun :=
  { fstate := freshReconnect p, live := true, delivered := [] }

/-- The Kraken client factory record created by `_start_socket`: the
queued subscription payload and the reconnect state.  (The JSON
marshalling of the payload and the callback object are abstracted.) -/
structure KrakenFactory where
  payload : String
  reconnect : ReconnectState
deriving DecidableEq, Repr

/-- The factory currently installed on a connector: the reconnecting
Kraken factory, or the plain `WebSocketClientFactory` that
`stop_socket` swaps in to disable reconnection. -/
inductive ConnFactory where
  | kraken (f : KrakenFactory)
  | plain
deriving DecidableEq, Repr

/-- A twisted connector as seen by this client: the factory currently
installed on it, and whether a reconnect call — the
`callLater(delay, reconnector)` that the collaborator's `retry()`
schedules after a connection loss — is still pending.  While such a
call is pending the connector sits in its disconnected (backoff)
state. -/
structure Connector where
  factory : ConnFactory
  pendingReconnect : Bool
deriving DecidableEq, Repr

/-- Modelled from the spec: the firing of a pending reconnect call of
the external twisted scheduler (not under `src/`).  Per spec §4.3 the
`Disconnected(retry) → Connecting` transition is automatic after the
backoff delay: the scheduled `reconnector` clears the timer and calls
`connector.connect()`, issuing a new connection attempt with whatever
factory is currently installed on the connector.  Returns the connector
afterwards and whether a connection attempt was issued. -/
def fireReconnect (c : Connector) : Connector × Bool :=
  if c.pendingReconnect then ({ c with pendingReconnect := false }, true)
  else (c, false)

/-- The registries of `KrakenSocketManager`: `factories` and `_conns`,
keyed by the connection identifier. -/
structure SocketManager where
  factories : String → Option KrakenFactory
  conns : String → Option Connector

/-- The manager right after `__init__`: empty registries. -/
def emptyManager : SocketManager :=
  { factories := fun _ => none, conns := fun _ => none }

/-- `KrakenSocketManager._start_socket`: return `False` when the
identifier already has a live connection (no other effect); otherwise
create a fresh Kraken factory, register it in `factories`, connect, and
store the connector in `_conns` (the Python function then returns
`None`, modelled `none`). -/
def startSocket (m : SocketManager) (id_ : String) (payload : String) :
    Option Bool × SocketManager :=
  if (m.conns id_).isSome then (some false, m)
  else
    let f : KrakenFactory :=
      { payload := payload
        reconnect := { retries := 0, delay := 1 / 10,
                       continueTrying := true } }
    (none,
      { factories := fun k => if k = id_ then some f else m.factories k
        conns := fun k =>
          if k = id_ then
            some { factory := ConnFactory.kraken f,
                   pendingReconnect := false }
          else m.conns k })

/-- `KrakenSocketManager.stop_socket`: no-op when the key has no live
connection; otherwise replace the connector's factory by a plain
(non-reconnecting) `WebSocketClientFactory`, call
`connector.disconnect()`, and delete the registry entry.  Twisted's
`disconnect()` only stops a connecting or connected attempt; while the
connector sits in its disconnected (backoff) state it does nothing, and
`stop_socket` never cancels the pending `callLater` nor calls
`stopTrying` — so the detached connector keeps its pending reconnect
flag.  Returns the new registry together with the detached connector
(which persists on the event loop), so that later events on it can be
stated. -/
def stopSocket (m : SocketManager) (key : String) :
    SocketManager × Option Connector :=
  match m.conns key with
  | some c =>
    ({ m with conns := fun k => if k = key then none else m.conns k },
      some { c with factory := ConnFactory.plain })
  | none => (m, none)

/-- A connection-loss event of a connector's live attempt, dispatched to
the connector's current factory: the Kraken factory runs its
`clientConnectionLost` handler (scheduling a reconnect via `retry` —
recorded in `pendingReconnect` — and possibly delivering the terminal
payload); a plain `WebSocketClientFactory` has no reconnection handler,
so the connector is unchanged, nothing is scheduled and nothing is
delivered. -/
def connectorLossEvent (p : ReconnectParams) (c : Connector) :
    Connector × List (List (String × String)) :=
  match c.factory with
  | ConnFactory.kraken f =>
    let r := clientConnectionLost p f.reconnect
    ({ factory := ConnFactory.kraken { f with reconnect := r.1 },
       pendingReconnect := r.2.1 }, r.2.2)
  | ConnFactory.plain => (c, [])

/-- A connector mid-backoff: its Kraken factory has seen a connection
loss, `retry()` has scheduled the next automatic reconnect attempt, and
that call is still pending. -/
def midBackoffConn : Connector :=
  { factory := ConnFactory.kraken
      { payload := "sub"
        reconnect := { retries := 3, delay := 1, continueTrying := true } }
    pendingReconnect := true }

/-- A registry holding one mid-backoff connection under `"tick"`. -/
def midBackoffManager : SocketManager :=
  { factories := fun _ => none
    conns := fun k => if k = "tick" then some midBackoffConn else none }

/-- `WssClient.subscribe_public`: identifier
`subscription['name'] + "_" + pair[0]`, then `_start_socket` with the
subscribe payload. -/
def subscribePublic (m : SocketManager) (subName : String)
    (pair : List String) (payload : String) :
    Option Bool × SocketManager :=
  startSocket m (subName ++ "_" ++ pair.headI) payload

/-- `KrakenClientProtocol.onMessage`: a binary frame is ignored; a
non-binary frame is UTF-8-decoded and JSON-parsed, and when that raises
`ValueError` (invalid UTF-8 — `UnicodeDecodeError` is a `ValueError` —
or invalid JSON) the frame is silently dropped, otherwise the decoded
object is handed to the factory's callback.  `decode` abstracts
`json.loads(payload.decode('utf8'))`, returning `none` exactly when a
`ValueError` would be raised; the result lists the callback invocations
caused by the frame. -/
def onMessage {μ : Type} (decode : List ℕ → Option μ) (payload : List ℕ)
    (isBinary : Bool) : List μ :=
  if isBinary then []
  else
    match decode payload with
    | none => []
    | some obj => [obj]

/-! # Theorems -/

/-- Unfolding equation for `admitPrivate` in terms of the decayed state. -/
theorem admit_eq (cfg : Config) (s : ApiState) (now : ℚ) (qt : QueryType) :
    admitPrivate cfg s now qt =
      if (decreaseApiCounter cfg s now).apiCounter < cfg.limit then
        (true, { decreaseApiCounter cfg s now with
                  apiCounter :=
                    (decreaseApiCounter cfg s now).apiCounter + incrOf qt })
      else (false, decreaseApiCounter cfg s now) := rfl

/-- C1 (counterexample): with tier `'Intermediate'` (`limit = 20`), a
post-decay counter of 19 and a ledger/trade-history query (`cost = 2`),
the code admits the call — the check is `api_counter < limit`, not
`counter + cost <= limit` — and the counter afterwards is 21 > 20, so
the claimed admission condition and the claimed `counter <= limit`
invariant both fail. -/
theorem admit_c1_counterexample :
    (admitPrivate cfgIntermediate ⟨19, 0, none⟩ 0 QueryType.ledgerTradeHistory).1
        = true ∧
    (admitPrivate cfgIntermediate ⟨19, 0, none⟩ 0
        QueryType.ledgerTradeHistory).2.apiCounter = 21 ∧
    ¬ (19 + incrOf QueryType.ledgerTradeHistory ≤ cfgIntermediate.limit) ∧
    cfgIntermediate.limit <
      (admitPrivate cfgIntermediate ⟨19, 0, none⟩ 0
        QueryType.ledgerTradeHistory).2.apiCounter := by
  norm_num [admitPrivate, decreaseApiCounter, tdSeconds, cfgIntermediate, incrOf]

/-- C1 (amended): `admit(cost)` first applies decay, then admits exactly
when the post-decay `counter` is strictly below `limit` (not when
`counter + cost <= limit`), incrementing the counter by `cost` (2 for
ledger/trade-history queries, 1 otherwise); otherwise it rejects with no
further counter change.  Consequently after an admitted call the counter
is at most `limit - 1 + cost` (it may exceed `limit` by up to
`cost - 1`). -/
theorem admit_c1_amended (cfg : Config) (s : ApiState) (now : ℚ)
    (qt : QueryType) :
    ((admitPrivate cfg s now qt).1 = true ↔
      (decreaseApiCounter cfg s now).apiCounter < cfg.limit) ∧
    ((admitPrivate cfg s now qt).1 = true →
      (admitPrivate cfg s now qt).2.apiCounter
          = (decreaseApiCounter cfg s now).apiCounter + incrOf qt ∧
      (admitPrivate cfg s now qt).2.apiCounter + 1 ≤ cfg.limit + incrOf qt ∧
      (admitPrivate cfg s now qt).2.timeOfLastQuery = now) ∧
    ((admitPrivate cfg s now qt).1 = false →
      (admitPrivate cfg s now qt).2 = decreaseApiCounter cfg s now) ∧
    incrOf QueryType.ledgerTradeHistory = 2 ∧
    incrOf QueryType.other = 1 := by
  have hiff : (admitPrivate cfg s now qt).1 = true ↔
      (decreaseApiCounter cfg s now).apiCounter < cfg.limit := by
    rw [admit_eq]
    by_cases h : (decreaseApiCounter cfg s now).apiCounter < cfg.limit
    · simp [h]
    · simp [h]
  refine ⟨hiff, ?_, ?_, rfl, rfl⟩
  · intro hadm
    have h := hiff.mp hadm
    rw [admit_eq, if_pos h]
    refine ⟨rfl, ?_, rfl⟩
    show (decreaseApiCounter cfg s now).apiCounter + incrOf qt + 1
        ≤ cfg.limit + incrOf qt
    omega
  · intro hrej
    have h : ¬ (decreaseApiCounter cfg s now).apiCounter < cfg.limit := by
      intro hc
      rw [hiff.mpr hc] at hrej
      cases hrej
    rw [admit_eq, if_neg h]

/-- Witness for `admit_c1_amended` at a concrete input: starting from
counter 0 an `'other'` query is admitted and the counter becomes 1. -/
theorem admit_c1_amended_witness :
    (admitPrivate cfgIntermediate ⟨0, 0, none⟩ 0 QueryType.other).1 = true ∧
    (admitPrivate cfgIntermediate ⟨0, 0, none⟩ 0 QueryType.other).2.apiCounter
      = 1 := by
  have h := admit_c1_amended cfgIntermediate ⟨0, 0, none⟩ 0 QueryType.other
  have hlt : (decreaseApiCounter cfgIntermediate ⟨0, 0, none⟩ 0).apiCounter
      < cfgIntermediate.limit := by
    norm_num [decreaseApiCounter, tdSeconds, cfgIntermediate]
  have hadm : (admitPrivate cfgIntermediate ⟨0, 0, none⟩ 0 QueryType.other).1
      = true := h.1.mpr hlt
  refine ⟨hadm, ?_⟩
  have h2 := (h.2.1 hadm).1
  have hc : (decreaseApiCounter cfgIntermediate ⟨0, 0, none⟩ 0).apiCounter
      = 0 := by
    norm_num [decreaseApiCounter, tdSeconds, cfgIntermediate]
  rw [h2, hc]
  simp [incrOf]

/-! ## Claim C3: the decay step vs. elapsed durations of a day or more -/

/-- C3 (divergence at the failing input): with `factor = 2`, a counter of
10 and a full day (86400 s) elapsed since `time_of_last_query`, the code
(`_decrease_api_counter`, which reads `timedelta.seconds` — the
sub-day seconds component — instead of the total elapsed seconds)
leaves the counter at 10, while the decay the spec describes
(`floor(86400 / 2) = 43200`, clamped at 0) brings it to 0.  Both
versions do clamp at 0 and update `time_of_last_query`. -/
theorem decay_c3_day_divergence :
    (decreaseApiCounter cfgIntermediate ⟨10, 0, none⟩ 86400).apiCounter
        = 10 ∧
    (decaySpec cfgIntermediate ⟨10, 0, none⟩ 86400).apiCounter = 0 ∧
    (decreaseApiCounter cfgIntermediate ⟨10, 0, none⟩ 86400).timeOfLastQuery
        = 86400 := by
  refine ⟨?_, ?_, rfl⟩
  · norm_num [decreaseApiCounter, tdSeconds, cfgIntermediate]
  · show (10 : ℕ) - (⌊(86400 - 0 : ℚ) / ((2 : ℕ) : ℚ)⌋).toNat = 0
    norm_num

/-! ## Unfolding lemmas for the fueled loops -/

theorem crlLoop_succ {ε : Type} (cs : ℚ)
    (inner : ℕ → World → Outcome ε × World) (fuel : ℕ) (w : World) :
    crlLoop cs inner (fuel + 1) w =
      match inner fuel w with
      | (Outcome.crlError, w') =>
        if cs = 0 then (Outcome.crlError, w')
        else crlLoop cs inner fuel { w' with now := w'.now + cs }
      | (o, w') => (o, w') := rfl

theorem privateLoop_succ {ε : Type} (cfg : Config)
    (transport : ℕ → Option ε) (incr fuel : ℕ) (w : World) :
    privateLoop cfg transport incr (fuel + 1) w =
      if w.st.apiCounter < cfg.limit then
        match transport (chargeCounter incr w).attempts with
        | none => (Outcome.ok, recordAttempt (chargeCounter incr w))
        | some _ =>
          privateLoop cfg transport incr fuel
            (decayW cfg
              { recordAttempt (chargeCounter incr w) with
                now := (recordAttempt (chargeCounter incr w)).now
                  + cfg.retry })
      else (Outcome.crlError, w) := rfl

theorem publicLoop_succ {ε : Type} (transport : ℕ → Option ε) (retryP : ℚ)
    (fuel : ℕ) (w : World) :
    publicLoop transport retryP (fuel + 1) w =
      match transport w.attempts with
      | none => (Outcome.ok, recordAttempt w)
      | some _ =>
        publicLoop transport retryP fuel
          (setLastPublic
            { recordAttempt w with now := (recordAttempt w).now + retryP })
      := rfl

/-- `crl_sleep` passes every non-`CallRateLimitError` result through
unchanged. -/
theorem crlLoop_pass {ε : Type} (cs : ℚ)
    (inner : ℕ → World → Outcome ε × World) (fuel : ℕ) (w : World)
    (o : Outcome ε) (w' : World) (hi : inner fuel w = (o, w'))
    (ho : o ≠ Outcome.crlError) :
    crlLoop cs inner (fuel + 1) w = (o, w') := by
  rw [crlLoop_succ, hi]
  cases o with
  | crlError => exact absurd rfl ho
  | ok => rfl
  | apiError e => rfl
  | fuelOut => rfl

/-- With `crl_sleep != 0`, a `CallRateLimitError` from the inner call is
caught: the wrapper sleeps `crl_sleep` seconds and resubmits. -/
theorem crlLoop_catch {ε : Type} (cs : ℚ)
    (inner : ℕ → World → Outcome ε × World) (fuel : ℕ) (w w' : World)
    (hi : inner fuel w = (Outcome.crlError, w')) (hcs : cs ≠ 0) :
    crlLoop cs inner (fuel + 1) w
      = crlLoop cs inner fuel { w' with now := w'.now + cs } := by
  rw [crlLoop_succ, hi]
  show (if cs = 0 then (Outcome.crlError, w')
      else crlLoop cs inner fuel { w' with now := w'.now + cs }) = _
  rw [if_neg hcs]

/-- With `crl_sleep == 0`, a `CallRateLimitError` from the inner call
propagates. -/
theorem crlLoop_raise {ε : Type} (cs : ℚ)
    (inner : ℕ → World → Outcome ε × World) (fuel : ℕ) (w w' : World)
    (hi : inner fuel w = (Outcome.crlError, w')) (hcs : cs = 0) :
    crlLoop cs inner (fuel + 1) w = (Outcome.crlError, w') := by
  rw [crlLoop_succ, hi]
  show (if cs = 0 then (Outcome.crlError, w')
      else crlLoop cs inner fuel { w' with now := w'.now + cs }) = _
  rw [if_pos hcs]

/-- A decorated call returns `CallRateLimitError` to the caller only when
`crl_sleep == 0`: with `crl_sleep != 0` the outer wrapper always catches
it and resubmits. -/
theorem crlLoop_crlError_only_if_no_sleep {ε : Type} (cs : ℚ)
    (inner : ℕ → World → Outcome ε × World) :
    ∀ fuel w, (crlLoop (ε := ε) cs inner fuel w).1 = Outcome.crlError →
      cs = 0 := by
  intro fuel
  induction fuel with
  | zero =>
    intro w h
    exact absurd h (by simp [crlLoop])
  | succ n ih =>
    intro w h
    rcases hi : inner n w with ⟨o, w'⟩
    rw [crlLoop_succ, hi] at h
    cases o with
    | crlError =>
      replace h : (if cs = 0 then (Outcome.crlError, w')
          else crlLoop cs inner n { w' with now := w'.now + cs }).1
            = Outcome.crlError := h
      by_cases hcs : cs = 0
      · exact hcs
      · rw [if_neg hcs] at h
        exact ih _ h
    | ok => simp at h
    | apiError e => simp at h
    | fuelOut => simp at h

/-! ## Projection lemmas for the bookkeeping helpers -/

theorem chargeCounter_attempts (i : ℕ) (w : World) :
    (chargeCounter i w).attempts = w.attempts := rfl

theorem decayW_attempts (cfg : Config) (w : World) :
    (decayW cfg w).attempts = w.attempts := rfl

theorem recordAttempt_attempts (w : World) :
    (recordAttempt w).attempts = w.attempts + 1 := rfl

/-! ## Claim C2: rejection by the public gate and `crl_sleep` -/

/-- C2 (amended): a rejection by the public-endpoint gate raises
`CallRateLimitError` out of the rate-limiter layer with the state
untouched, and it is terminal for the attempt exactly when
`crl_sleep == 0`: with `crl_sleep != 0` the decorated call never
surfaces the rejection (the outer `crl_sleep` wrapper catches it, sleeps
and resubmits). -/
theorem public_reject_c2_amended {ε : Type} (cfg : Config)
    (transport : ℕ → Option ε) (fuel : ℕ) (w : World) (t0 : ℚ)
    (hl : w.st.timeOfLastPublicQuery = some t0) (hlt : w.now - t0 < 1) :
    publicInner cfg transport fuel w = (Outcome.crlError, w) ∧
    (cfg.crlSleep = 0 →
      publicCall cfg transport (fuel + 1) w = (Outcome.crlError, w)) ∧
    (∀ fuel' w',
      (publicCall cfg transport fuel' w').1 = Outcome.crlError →
        cfg.crlSleep = 0) := by
  have hinner : publicInner (ε := ε) cfg transport fuel w
      = (Outcome.crlError, w) := by
    simp only [publicInner, hl, if_pos hlt]
  refine ⟨hinner, ?_, ?_⟩
  · intro hcs
    exact crlLoop_raise cfg.crlSleep (publicInner cfg transport) fuel w w
      hinner hcs
  · intro fuel' w' h
    exact crlLoop_crlError_only_if_no_sleep cfg.crlSleep
      (publicInner cfg transport) fuel' w' h

/-- Witness for `public_reject_c2_amended`: at the closed gate with
`crl_sleep = 0` the decorated public call raises
`CallRateLimitError`. -/
theorem public_reject_c2_amended_witness :
    publicCall cfgAllOff transportOk 2 gateClosedWorld
      = (Outcome.crlError, gateClosedWorld) :=
  (public_reject_c2_amended cfgAllOff transportOk 1 gateClosedWorld 0 rfl
    (by norm_num [gateClosedWorld])).2.1 rfl

/-- C2 (counterexample): with the default `crl_sleep = 5`, a public call
rejected by the gate is not raised to the caller: the `crl_sleep`
wrapper sleeps 5 seconds and resubmits, and the decorated call returns
normally after one transport attempt. -/
theorem public_c2_counterexample :
    cfgNoRetry.crlSleep ≠ 0 ∧
    publicInner cfgNoRetry transportOk 1 gateClosedWorld
      = (Outcome.crlError, gateClosedWorld) ∧
    (publicCall cfgNoRetry transportOk 2 gateClosedWorld).1
      = Outcome.ok ∧
    (publicCall cfgNoRetry transportOk 2 gateClosedWorld).2.attempts
      = 1 := by
  have e1 : publicInner cfgNoRetry transportOk 1 gateClosedWorld
      = (Outcome.crlError, gateClosedWorld) := by
    norm_num [publicInner, gateClosedWorld]
  have e3 : publicInner cfgNoRetry transportOk 0
      { gateClosedWorld with now := gateClosedWorld.now + 5 }
      = (Outcome.ok,
          { st := { apiCounter := 0, timeOfLastQuery := 0,
                    timeOfLastPublicQuery := some 5 },
            now := 5, attempts := 1, times := [5] }) := by
    norm_num [publicInner, publicAdmitted, setLastPublic, recordAttempt,
      transportOk, cfgNoRetry, gateClosedWorld]
  have e4 : crlLoop (5 : ℚ) (publicInner cfgNoRetry transportOk) (0 + 1)
      { gateClosedWorld with now := gateClosedWorld.now + 5 }
      = (Outcome.ok,
          { st := { apiCounter := 0, timeOfLastQuery := 0,
                    timeOfLastPublicQuery := some 5 },
            now := 5, attempts := 1, times := [5] }) :=
    crlLoop_pass 5 (publicInner cfgNoRetry transportOk) 0 _ _ _ e3
      (by simp)
  have e2 : crlLoop (5 : ℚ) (publicInner cfgNoRetry transportOk) (1 + 1)
      gateClosedWorld
      = crlLoop 5 (publicInner cfgNoRetry transportOk) 1
          { gateClosedWorld with now := gateClosedWorld.now + 5 } :=
    crlLoop_catch 5 (publicInner cfgNoRetry transportOk) 1 _ _ e1
      (by norm_num)
  have e5 : publicCall cfgNoRetry transportOk 2 gateClosedWorld
      = (Outcome.ok,
          { st := { apiCounter := 0, timeOfLastQuery := 0,
                    timeOfLastPublicQuery := some 5 },
            now := 5, attempts := 1, times := [5] }) := by
    show crlLoop cfgNoRetry.crlSleep (publicInner cfgNoRetry transportOk) 2
        gateClosedWorld = _
    have hcs : cfgNoRetry.crlSleep = (5 : ℚ) := rfl
    rw [hcs]
    have h2 : (2 : ℕ) = 1 + 1 := by norm_num
    rw [h2, e2]
    simpa using e4
  exact ⟨by norm_num [cfgNoRetry], e1, by rw [e5], by rw [e5]⟩

/-! ## Claim C4: behaviour with `retry == 0` -/

/-- Unfolding of the private wrapper in the `retry == 0` case: decay,
then one admission check and at most one transport attempt. -/
theorem privateInner_retry0 {ε : Type} (cfg : Config)
    (transport : ℕ → Option ε) (qt : QueryType) (fuel : ℕ) (w : World)
    (hr : cfg.retry = 0) :
    privateInner cfg transport qt fuel w =
      if (decayW cfg w).st.apiCounter < cfg.limit then
        match transport w.attempts with
        | none =>
          (Outcome.ok, recordAttempt (chargeCounter (incrOf qt) (decayW cfg w)))
        | some e =>
          (Outcome.apiError e,
            recordAttempt (chargeCounter (incrOf qt) (decayW cfg w)))
      else (Outcome.crlError, decayW cfg w) := by
  simp only [privateInner, if_pos hr]
  rfl

/-- C4 (amended): when `retry == 0` the transport call is attempted at
most once and a remote/transport error propagates unmodified after
exactly one attempt, whatever `crl_sleep` is; a budget rejection
(`CallRateLimitError`) propagates only when additionally
`crl_sleep == 0` — with `crl_sleep > 0` the outer wrapper catches it,
sleeps, and resubmits the call (see the counterexample). -/
theorem private_c4_amended {ε : Type} (cfg : Config)
    (transport : ℕ → Option ε) (qt : QueryType) (fuel : ℕ) (w : World)
    (hr : cfg.retry = 0) :
    ((decayW cfg w).st.apiCounter < cfg.limit →
      ∀ e, transport w.attempts = some e →
        (privateCall cfg transport qt (fuel + 1) w).1 = Outcome.apiError e ∧
        (privateCall cfg transport qt (fuel + 1) w).2.attempts
          = w.attempts + 1) ∧
    (cfg.crlSleep = 0 → ¬ (decayW cfg w).st.apiCounter < cfg.limit →
      privateCall cfg transport qt (fuel + 1) w
        = (Outcome.crlError, decayW cfg w) ∧
      (decayW cfg w).attempts = w.attempts) := by
  constructor
  · intro hlt e hte
    have hi : privateInner cfg transport qt fuel w
        = (Outcome.apiError e,
            recordAttempt (chargeCounter (incrOf qt) (decayW cfg w))) := by
      rw [privateInner_retry0 cfg transport qt fuel w hr, if_pos hlt, hte]
    have hcall : privateCall cfg transport qt (fuel + 1) w
        = (Outcome.apiError e,
            recordAttempt (chargeCounter (incrOf qt) (decayW cfg w))) :=
      crlLoop_pass cfg.crlSleep (privateInner cfg transport qt) fuel w _ _
        hi (by simp)
    rw [hcall]
    exact ⟨rfl, rfl⟩
  · intro hcs hge
    have hi : privateInner cfg transport qt fuel w
        = (Outcome.crlError, decayW cfg w) := by
      rw [privateInner_retry0 cfg transport qt fuel w hr, if_neg hge]
    exact ⟨crlLoop_raise cfg.crlSleep (privateInner cfg transport qt) fuel
      w _ hi hcs, rfl⟩

/-- Witness for `private_c4_amended`: with everything disabled, a
failing transport call raises after exactly one attempt. -/
theorem private_c4_amended_witness :
    (privateCall cfgAllOff alwaysFail QueryType.other 1 freshWorld).1
      = Outcome.apiError () ∧
    (privateCall cfgAllOff alwaysFail QueryType.other 1 freshWorld).2.attempts
      = 1 := by
  have h := (private_c4_amended cfgAllOff alwaysFail QueryType.other 0
    freshWorld rfl).1
    (by norm_num [decayW, decreaseApiCounter, tdSeconds, freshWorld,
      cfgAllOff])
    () rfl
  exact h

/-- C4 (counterexample): with `retry = 0` but the default
`crl_sleep = 5`, a budget rejection does not propagate: the wrapper
catches the `CallRateLimitError`, sleeps (during which the counter
decays), resubmits, and the call returns normally after one transport
attempt. -/
theorem private_c4_counterexample :
    cfgNoRetry.retry = 0 ∧ cfgNoRetry.crlSleep ≠ 0 ∧
    privateInner cfgNoRetry transportOk QueryType.other 1 counterFullWorld
      = (Outcome.crlError, counterFullWorld) ∧
    (privateCall cfgNoRetry transportOk QueryType.other 2
        counterFullWorld).1 = Outcome.ok ∧
    (privateCall cfgNoRetry transportOk QueryType.other 2
        counterFullWorld).2.attempts = 1 := by
  have e1 : privateInner cfgNoRetry transportOk QueryType.other 1
      counterFullWorld = (Outcome.crlError, counterFullWorld) := by
    rw [privateInner_retry0 cfgNoRetry transportOk QueryType.other 1
      counterFullWorld rfl]
    rw [if_neg (by norm_num [decayW, decreaseApiCounter, tdSeconds,
      counterFullWorld, cfgNoRetry])]
    norm_num [decayW, decreaseApiCounter, tdSeconds, counterFullWorld]
  have e3 : privateInner cfgNoRetry transportOk QueryType.other 0
      { counterFullWorld with now := counterFullWorld.now + 5 }
      = (Outcome.ok,
          { st := { apiCounter := 19, timeOfLastQuery := 5,
                    timeOfLastPublicQuery := none },
            now := 5, attempts := 1, times := [5] }) := by
    rw [privateInner_retry0 cfgNoRetry transportOk QueryType.other 0
      _ rfl]
    rw [if_pos (by
      norm_num [decayW, decreaseApiCounter, tdSeconds,
        counterFullWorld, cfgNoRetry]
      decide)]
    norm_num [transportOk, recordAttempt, chargeCounter, decayW,
      decreaseApiCounter, tdSeconds, counterFullWorld, incrOf, cfgNoRetry]
    decide
  have e4 : crlLoop (5 : ℚ)
      (privateInner cfgNoRetry transportOk QueryType.other) (0 + 1)
      { counterFullWorld with now := counterFullWorld.now + 5 }
      = (Outcome.ok,
          { st := { apiCounter := 19, timeOfLastQuery := 5,
                    timeOfLastPublicQuery := none },
            now := 5, attempts := 1, times := [5] }) :=
    crlLoop_pass 5 (privateInner cfgNoRetry transportOk QueryType.other)
      0 _ _ _ e3 (by simp)
  have e2 : crlLoop (5 : ℚ)
      (privateInner cfgNoRetry transportOk QueryType.other) (1 + 1)
      counterFullWorld
      = crlLoop 5 (privateInner cfgNoRetry transportOk QueryType.other) 1
          { counterFullWorld with now := counterFullWorld.now + 5 } :=
    crlLoop_catch 5 (privateInner cfgNoRetry transportOk QueryType.other)
      1 _ _ e1 (by norm_num)
  have e5 : privateCall cfgNoRetry transportOk QueryType.other 2
      counterFullWorld
      = (Outcome.ok,
          { st := { apiCounter := 19, timeOfLastQuery := 5,
                    timeOfLastPublicQuery := none },
            now := 5, attempts := 1, times := [5] }) := by
    show crlLoop cfgNoRetry.crlSleep
        (privateInner cfgNoRetry transportOk QueryType.other) 2
        counterFullWorld = _
    have hcs : cfgNoRetry.crlSleep = (5 : ℚ) := rfl
    have h2 : (2 : ℕ) = 1 + 1 := by norm_num
    rw [hcs, h2, e2]
    simpa using e4
  exact ⟨rfl, by norm_num [cfgNoRetry], e1, by rw [e5], by rw [e5]⟩

/-! ## Claim C5: the unbounded retry loop -/

/-- Unfolding of the private wrapper in the `retry != 0` case: decay,
then the retry loop. -/
theorem privateInner_retryPos {ε : Type} (cfg : Config)
    (transport : ℕ → Option ε) (qt : QueryType) (fuel : ℕ) (w : World)
    (hr : cfg.retry ≠ 0) :
    privateInner cfg transport qt fuel w
      = privateLoop cfg transport (incrOf qt) fuel (decayW cfg w) := by
  simp only [privateInner, if_neg hr]

/-- With a transport that fails on every attempt, the private retry loop
never returns normally: it either runs out of fuel or exits into the
`CallRateLimitError` raise. -/
theorem privateLoop_fail_no_ok {ε : Type} (cfg : Config)
    (transport : ℕ → Option ε) (incr : ℕ)
    (hfail : ∀ k, transport k ≠ none) :
    ∀ fuel w,
      (privateLoop cfg transport incr fuel w).1 = Outcome.fuelOut ∨
      (privateLoop cfg transport incr fuel w).1 = Outcome.crlError := by
  intro fuel
  induction fuel with
  | zero =>
    intro w
    left
    rfl
  | succ n ih =>
    intro w
    rw [privateLoop_succ]
    by_cases h : w.st.apiCounter < cfg.limit
    · rw [if_pos h]
      rcases ht : transport (chargeCounter incr w).attempts with _ | e
      · exact absurd ht (hfail _)
      · exact ih _
    · rw [if_neg h]
      right
      rfl

/-- With `crl_sleep != 0`, if the inner wrapped call can only run out of
fuel or raise `CallRateLimitError`, the decorated call never terminates:
every run ends in fuel exhaustion. -/
theorem crlLoop_fail_out {ε : Type} (cs : ℚ)
    (inner : ℕ → World → Outcome ε × World) (hcs : cs ≠ 0)
    (hinner : ∀ fuel w, (inner fuel w).1 = Outcome.fuelOut ∨
      (inner fuel w).1 = Outcome.crlError) :
    ∀ fuel w, (crlLoop cs inner fuel w).1 = Outcome.fuelOut := by
  intro fuel
  induction fuel with
  | zero =>
    intro w
    rfl
  | succ n ih =>
    intro w
    rcases hi : inner n w with ⟨o, w'⟩
    rw [crlLoop_succ, hi]
    rcases hinner n w with h | h
    · rw [hi] at h
      simp only at h
      subst h
      rfl
    · rw [hi] at h
      simp only at h
      subst h
      show (if cs = 0 then (Outcome.crlError, w')
          else crlLoop cs inner n { w' with now := w'.now + cs }).1
            = Outcome.fuelOut
      rw [if_neg hcs]
      exact ih _

/-- With both retry knobs on and an always-failing transport, the
decorated private call never terminates by raising (nor by returning):
every fueled run ends in fuel exhaustion. -/
theorem privateCall_fail_fuelOut {ε : Type} (cfg : Config)
    (transport : ℕ → Option ε) (qt : QueryType) (hr : cfg.retry ≠ 0)
    (hc : cfg.crlSleep ≠ 0) (hfail : ∀ k, transport k ≠ none) :
    ∀ fuel w, (privateCall cfg transport qt fuel w).1 = Outcome.fuelOut := by
  apply crlLoop_fail_out cfg.crlSleep _ hc
  intro fuel w
  rw [privateInner_retryPos cfg transport qt fuel w hr]
  exact privateLoop_fail_no_ok cfg transport _ hfail fuel _

/-- In the concrete configuration `retry = 2`, `factor = 2` with an
always-failing transport and counter 0, each loop iteration performs one
transport attempt and returns the state to its shape (the 2-second
retry sleep decays exactly the 1 unit charged), so a run with `fuel`
iterations performs exactly `fuel` attempts and times out. -/
theorem privateLoop_retry2_spin :
    ∀ (fuel : ℕ) (t : ℚ) (a : ℕ) (ts : List ℚ),
      (privateLoop cfgRetry2 alwaysFail 1 fuel
        { st := { apiCounter := 0, timeOfLastQuery := t,
                  timeOfLastPublicQuery := none },
          now := t, attempts := a, times := ts }).1 = Outcome.fuelOut ∧
      (privateLoop cfgRetry2 alwaysFail 1 fuel
        { st := { apiCounter := 0, timeOfLastQuery := t,
                  timeOfLastPublicQuery := none },
          now := t, attempts := a, times := ts }).2.attempts = a + fuel := by
  intro fuel
  induction fuel with
  | zero =>
    intro t a ts
    exact ⟨rfl, rfl⟩
  | succ n ih =>
    intro t a ts
    have hcond : ({ st := { apiCounter := 0, timeOfLastQuery := t,
                            timeOfLastPublicQuery := none },
                    now := t, attempts := a,
                    times := ts } : World).st.apiCounter
          < cfgRetry2.limit := by
      norm_num [cfgRetry2]
    have htd : tdSeconds (2 : ℚ) = 2 := by decide
    have hw : decayW cfgRetry2
        { recordAttempt (chargeCounter 1
            { st := { apiCounter := 0, timeOfLastQuery := t,
                      timeOfLastPublicQuery := none },
              now := t, attempts := a, times := ts }) with
          now := (recordAttempt (chargeCounter 1
            { st := { apiCounter := 0, timeOfLastQuery := t,
                      timeOfLastPublicQuery := none },
              now := t, attempts := a, times := ts })).now
                + cfgRetry2.retry }
        = { st := { apiCounter := 0, timeOfLastQuery := t + 2,
                    timeOfLastPublicQuery := none },
            now := t + 2, attempts := a + 1, times := ts ++ [t] } := by
      simp [decayW, recordAttempt, chargeCounter, decreaseApiCounter,
        cfgRetry2, htd]
    constructor
    · rw [privateLoop_succ, if_pos hcond]
      show (privateLoop cfgRetry2 alwaysFail 1 n
        (decayW cfgRetry2
          { recordAttempt (chargeCounter 1
              { st := { apiCounter := 0, timeOfLastQuery := t,
                        timeOfLastPublicQuery := none },
                now := t, attempts := a, times := ts }) with
            now := (recordAttempt (chargeCounter 1
              { st := { apiCounter := 0, timeOfLastQuery := t,
                        timeOfLastPublicQuery := none },
                now := t, attempts := a, times := ts })).now
                  + cfgRetry2.retry })).1 = Outcome.fuelOut
      rw [hw]
      exact (ih (t + 2) (a + 1) (ts ++ [t])).1
    · rw [privateLoop_succ, if_pos hcond]
      show (privateLoop cfgRetry2 alwaysFail 1 n
        (decayW cfgRetry2
          { recordAttempt (chargeCounter 1
              { st := { apiCounter := 0, timeOfLastQuery := t,
                        timeOfLastPublicQuery := none },
                now := t, attempts := a, times := ts }) with
            now := (recordAttempt (chargeCounter 1
              { st := { apiCounter := 0, timeOfLastQuery := t,
                        timeOfLastPublicQuery := none },
                now := t, attempts := a, times := ts })).now
                  + cfgRetry2.retry })).2.attempts = a + (n + 1)
      rw [hw]
      have := (ih (t + 2) (a + 1) (ts ++ [t])).2
      omega

/-- C5: with `retry > 0` and `crl_sleep > 0` and a transport call that
fails on every attempt, the decorated private call never terminates by
raising an error (every fueled run ends in fuel exhaustion, for any
configuration with both knobs nonzero), and there is no bound on the
number of attempts: in the concrete `retry = 2` configuration, for every
`n` there is a run performing more than `n` transport attempts. -/
theorem private_c5_unbounded {ε : Type} (cfg : Config)
    (transport : ℕ → Option ε) (qt : QueryType) (hr : cfg.retry ≠ 0)
    (hc : cfg.crlSleep ≠ 0) (hfail : ∀ k, transport k ≠ none) :
    (∀ fuel w, (privateCall cfg transport qt fuel w).1 = Outcome.fuelOut) ∧
    (∀ n, ∃ fuel,
      n < (privateCall cfgRetry2 alwaysFail QueryType.other fuel
        freshWorld).2.attempts) := by
  constructor
  · exact privateCall_fail_fuelOut cfg transport qt hr hc hfail
  · intro n
    refine ⟨n + 2, ?_⟩
    have hd : decayW cfgRetry2 freshWorld = freshWorld := by
      have htd0 : tdSeconds (0 : ℚ) = 0 := by decide
      simp [decayW, decreaseApiCounter, freshWorld, cfgRetry2, htd0]
    rcases hres : privateLoop cfgRetry2 alwaysFail 1 (n + 1) freshWorld
      with ⟨o, w'⟩
    have hspin := privateLoop_retry2_spin (n + 1) 0 0 []
    have hfw : ({ st := { apiCounter := 0, timeOfLastQuery := 0,
                          timeOfLastPublicQuery := none },
                  now := 0, attempts := 0,
                  times := [] } : World) = freshWorld := rfl
    rw [hfw, hres] at hspin
    simp only at hspin
    have ho : o = Outcome.fuelOut := hspin.1
    have ha : w'.attempts = 0 + (n + 1) := hspin.2
    have hi : privateInner cfgRetry2 alwaysFail QueryType.other (n + 1)
        freshWorld = (Outcome.fuelOut, w') := by
      rw [privateInner_retryPos cfgRetry2 alwaysFail QueryType.other
        (n + 1) freshWorld (by norm_num [cfgRetry2]), hd]
      show privateLoop cfgRetry2 alwaysFail 1 (n + 1) freshWorld
        = (Outcome.fuelOut, w')
      rw [hres, ho]
    have hpass : privateCall cfgRetry2 alwaysFail QueryType.other
        ((n + 1) + 1) freshWorld = (Outcome.fuelOut, w') :=
      crlLoop_pass cfgRetry2.crlSleep
        (privateInner cfgRetry2 alwaysFail QueryType.other) (n + 1)
        freshWorld _ _ hi (by simp)
    have hfuel : (n + 1) + 1 = n + 2 := by omega
    rw [hfuel] at hpass
    rw [hpass]
    show n < w'.attempts
    omega

/-- Witness for `private_c5_unbounded` in the concrete `retry = 2`,
`crl_sleep = 5` configuration with the always-failing transport. -/
theorem private_c5_unbounded_witness :
    (privateCall cfgRetry2 alwaysFail QueryType.other 1 freshWorld).1
      = Outcome.fuelOut ∧
    ∃ fuel, 0 < (privateCall cfgRetry2 alwaysFail QueryType.other fuel
      freshWorld).2.attempts := by
  have h := private_c5_unbounded cfgRetry2 alwaysFail QueryType.other
    (by norm_num [cfgRetry2]) (by norm_num [cfgRetry2])
    (fun k => by simp [alwaysFail])
  exact ⟨h.1 1 freshWorld, h.2 0⟩

/-! ## Claim C6: public-call spacing -/

theorem sep1_append (c : ℚ) :
    ∀ xs, sep1 xs = true → (∀ x ∈ xs, x + 1 ≤ c) →
      sep1 (xs ++ [c]) = true := by
  intro xs
  induction xs with
  | nil =>
    intro _ _
    rfl
  | cons a xs ih =>
    cases xs with
    | nil =>
      intro _ h
      show (decide (a + 1 ≤ c) && sep1 [c]) = true
      simp [sep1, h a (by simp)]
    | cons b r =>
      intro hs h
      have hs' : (a + 1 ≤ b) ∧ sep1 (b :: r) = true := by
        simpa [sep1] using hs
      show (decide (a + 1 ≤ b) && sep1 ((b :: r) ++ [c])) = true
      simp only [Bool.and_eq_true, decide_eq_true_eq]
      exact ⟨hs'.1, ih hs'.2 (fun x hx => h x (by simp [hx]))⟩

/-- Invariant of the public retry loop: entering with a 1-separated
attempt log whose entries all precede `now` by at least 1 s, and with
`time_of_last_public_query = now` (just recorded), the loop leaves a
state satisfying `timesOk` — every retried attempt inside the loop is
spaced at least `retryP >= 1` seconds from the previous one. -/
theorem publicLoop_inv {ε : Type} (transport : ℕ → Option ε)
    (retryP : ℚ) (hre : 1 ≤ retryP) :
    ∀ fuel w, sep1 w.times = true → (∀ x ∈ w.times, x + 1 ≤ w.now) →
      w.st.timeOfLastPublicQuery = some w.now →
      timesOk (publicLoop transport retryP fuel w).2 := by
  intro fuel
  induction fuel with
  | zero =>
    intro w h1 h2 h3
    show timesOk w
    refine ⟨h1, ?_, ?_⟩
    · intro x hx
      exact ⟨w.now, h3, by linarith [h2 x hx]⟩
    · intro t0 ht0
      rw [h3] at ht0
      injection ht0 with ht0
      exact le_of_eq ht0.symm
  | succ n ih =>
    intro w h1 h2 h3
    rw [publicLoop_succ]
    have hsep : sep1 (w.times ++ [w.now]) = true := sep1_append w.now _ h1 h2
    rcases ht : transport w.attempts with _ | e
    · -- success: one attempt recorded at the current time
      refine ⟨hsep, ?_, ?_⟩
      · intro x hx
        refine ⟨w.now, h3, ?_⟩
        rcases List.mem_append.mp hx with hx | hx
        · have := h2 x hx
          linarith
        · simp at hx
          simp [hx]
      · intro t0 ht0
        rw [show (recordAttempt w).st = w.st from rfl, h3] at ht0
        cases ht0
        exact le_refl _
    · -- failure: sleep `retryP`, restamp the gate, loop
      apply ih
      · exact hsep
      · intro x hx
        show x + 1 ≤ w.now + retryP
        rcases List.mem_append.mp hx with hx | hx
        · have := h2 x hx
          linarith
        · simp at hx
          subst hx
          linarith
      · rfl

/-- The admitted path preserves the attempt-log invariant: it stamps
`time_of_last_public_query := now` and then issues attempts spaced at
least 1 s apart. -/
theorem publicAdmitted_inv {ε : Type} (cfg : Config)
    (transport : ℕ → Option ε) (fuel : ℕ) (w : World)
    (h1 : sep1 w.times = true) (h2 : ∀ x ∈ w.times, x + 1 ≤ w.now) :
    timesOk (publicAdmitted cfg transport fuel w).2 := by
  have hsep : sep1 (w.times ++ [w.now]) = true := sep1_append w.now _ h1 h2
  by_cases hr : cfg.retry = 0
  · simp only [publicAdmitted, if_pos hr]
    have hgoal : timesOk (recordAttempt (setLastPublic w)) := by
      refine ⟨hsep, ?_, ?_⟩
      · intro x hx
        refine ⟨w.now, rfl, ?_⟩
        rcases List.mem_append.mp hx with hx | hx
        · have := h2 x hx
          linarith
        · simp at hx
          rw [hx]
          exact le_refl w.now
      · intro t0 ht0
        injection ht0 with ht0
        exact le_of_eq ht0.symm
    rcases transport (setLastPublic w).attempts with _ | e
    · exact hgoal
    · exact hgoal
  · simp only [publicAdmitted, if_neg hr]
    apply publicLoop_inv transport _ (le_trans (by norm_num)
      (le_max_right cfg.retry (21 / 20)))
    · exact h1
    · exact h2
    · rfl

/-- The public wrapper preserves the attempt-log invariant. -/
theorem publicInner_inv {ε : Type} (cfg : Config)
    (transport : ℕ → Option ε) (fuel : ℕ) (w : World) (hw : timesOk w) :
    timesOk (publicInner cfg transport fuel w).2 := by
  obtain ⟨h1, h2, h3⟩ := hw
  rcases hl : w.st.timeOfLastPublicQuery with _ | t0
  · simp only [publicInner, hl]
    apply publicAdmitted_inv cfg transport fuel w h1
    intro x hx
    obtain ⟨t0, ht0, -⟩ := h2 x hx
    rw [hl] at ht0
    cases ht0
  · simp only [publicInner, hl]
    by_cases hlt : w.now - t0 < 1
    · rw [if_pos hlt]
      exact ⟨h1, fun x hx => by
        obtain ⟨u, hu, hxu⟩ := h2 x hx
        exact ⟨u, hu, hxu⟩, h3⟩
    · rw [if_neg hlt]
      apply publicAdmitted_inv cfg transport fuel w h1
      intro x hx
      obtain ⟨u, hu, hxu⟩ := h2 x hx
      rw [hl] at hu
      cases hu
      have hge : 1 ≤ w.now - t0 := not_lt.mp hlt
      linarith

/-- The `crl_sleep` wrapper preserves any property preserved by the
inner call and by advancing the clock. -/
theorem crlLoop_preserves {ε : Type} (cs : ℚ)
    (inner : ℕ → World → Outcome ε × World) (P : World → Prop)
    (hbump : ∀ w, P w → P { w with now := w.now + cs })
    (hinner : ∀ fuel w, P w → P (inner fuel w).2) :
    ∀ fuel w, P w → P (crlLoop cs inner fuel w).2 := by
  intro fuel
  induction fuel with
  | zero =>
    intro w hw
    exact hw
  | succ n ih =>
    intro w hw
    rcases hi : inner n w with ⟨o, w'⟩
    rw [crlLoop_succ, hi]
    have hw' : P w' := by
      have := hinner n w hw
      rw [hi] at this
      exact this
    cases o with
    | crlError =>
      show P (if cs = 0 then ((Outcome.crlError : Outcome ε), w')
        else crlLoop cs inner n { w' with now := w'.now + cs }).2
      by_cases hcs : cs = 0
      · rw [if_pos hcs]
        exact hw'
      · rw [if_neg hcs]
        exact ih _ (hbump w' hw')
    | ok => exact hw'
    | apiError e => exact hw'
    | fuelOut => exact hw'

/-- C6: no two public transport calls are issued closer together than
`min_interval = 1` second.  First part: the gate rejects an admission
attempt when less than 1 s has elapsed since the recorded last public
call, leaving the state untouched.  Second part: the decorated public
call (gate, retry loop with delay `max(retry, 1.05)`, and `crl_sleep`
resubmission) preserves `timesOk`, whose `sep1` component says every
recorded public attempt time — including retried attempts inside the
retry loop — is at least 1 s after the previous one. -/
theorem public_c6_spacing {ε : Type} (cfg : Config)
    (transport : ℕ → Option ε) (hcs : 0 ≤ cfg.crlSleep) :
    (∀ fuel w t0, w.st.timeOfLastPublicQuery = some t0 → w.now - t0 < 1 →
      publicInner cfg transport fuel w = (Outcome.crlError, w)) ∧
    (∀ fuel w, timesOk w → timesOk (publicCall cfg transport fuel w).2) := by
  constructor
  · intro fuel w t0 hl hlt
    simp only [publicInner, hl, if_pos hlt]
  · intro fuel w hw
    apply crlLoop_preserves cfg.crlSleep (publicInner cfg transport)
      timesOk _ _ fuel w hw
    · intro w' hw'
      obtain ⟨h1, h2, h3⟩ := hw'
      refine ⟨h1, h2, ?_⟩
      intro t0 ht0
      have := h3 t0 ht0
      show t0 ≤ w'.now + cfg.crlSleep
      linarith
    · intro fuel' w'
      exact publicInner_inv cfg transport fuel' w'

/-- Witness for `public_c6_spacing`: concrete closed-gate rejection and
invariant preservation from the fresh state. -/
theorem public_c6_spacing_witness :
    publicInner cfgIntermediate transportOk 1 gateClosedWorld
      = (Outcome.crlError, gateClosedWorld) ∧
    timesOk (publicCall cfgIntermediate transportOk 3 freshWorld).2 := by
  have h := public_c6_spacing cfgIntermediate transportOk
    (by norm_num [cfgIntermediate])
  refine ⟨h.1 1 gateClosedWorld 0 rfl (by norm_num [gateClosedWorld]), ?_⟩
  apply h.2 3 freshWorld
  refine ⟨rfl, ?_, ?_⟩
  · intro x hx
    simp [freshWorld] at hx
  · intro t0 ht0
    simp [freshWorld] at ht0

/-! ## Claim C7: terminal failure delivery -/

/-- Once a connection run is no longer live, no further loss event can
occur: the run is inert. -/
theorem runLosses_dead (p : ReconnectParams) :
    ∀ (n : ℕ) (s : ReconnectState) (ds : List (List (String × String))),
      runLosses p n { fstate := s, live := false, delivered := ds }
        = { fstate := s, live := false, delivered := ds } := by
  intro n
  induction n with
  | zero =>
    intro s ds
    rfl
  | succ k ih =>
    intro s ds
    show runLosses p k
      (lossEventStep p { fstate := s, live := false, delivered := ds }) = _
    rw [show lossEventStep p { fstate := s, live := false, delivered := ds }
        = { fstate := s, live := false, delivered := ds } from by
      simp [lossEventStep]]
    exact ih s ds

/-- Exact behaviour of a run of loss events starting below the retry
ceiling: as long as the ceiling is not crossed nothing is delivered and
reconnects keep being scheduled; the event that pushes `retries` past
`maxRetries` delivers the terminal payload once and stops the run. -/
theorem runLosses_master (p : ReconnectParams) :
    ∀ (n r : ℕ) (d : ℚ) (ds : List (List (String × String))),
      r ≤ p.maxRetries →
      ((r + n ≤ p.maxRetries →
        ∃ d', runLosses p n
          { fstate := { retries := r, delay := d, continueTrying := true },
            live := true, delivered := ds }
          = { fstate := { retries := r + n, delay := d',
                          continueTrying := true },
              live := true, delivered := ds }) ∧
      (p.maxRetries < r + n →
        ∃ d', runLosses p n
          { fstate := { retries := r, delay := d, continueTrying := true },
            live := true, delivered := ds }
          = { fstate := { retries := p.maxRetries + 1, delay := d',
                          continueTrying := true },
              live := false,
              delivered := ds ++ [reconnectErrorPayload] })) := by
  intro n
  induction n with
  | zero =>
    intro r d ds hr
    constructor
    · intro _
      exact ⟨d, rfl⟩
    · intro hlt
      omega
  | succ k ih =>
    intro r d ds hr
    by_cases hcase : r + 1 > p.maxRetries
    · have hrm : r = p.maxRetries := by omega
      subst hrm
      have hevent : lossEventStep p
          { fstate := { retries := p.maxRetries, delay := d,
                        continueTrying := true },
            live := true, delivered := ds }
          = { fstate := { retries := p.maxRetries + 1, delay := d,
                          continueTrying := true },
              live := false, delivered := ds ++ [reconnectErrorPayload] } := by
        simp [lossEventStep, clientConnectionLost, retryStep]
      constructor
      · intro hle
        omega
      · intro _
        refine ⟨d, ?_⟩
        show runLosses p k (lossEventStep p _) = _
        rw [hevent]
        exact runLosses_dead p k _ _
    · have hevent : lossEventStep p
          { fstate := { retries := r, delay := d, continueTrying := true },
            live := true, delivered := ds }
          = { fstate := { retries := r + 1,
                          delay := min (d * p.growth) p.maxDelay,
                          continueTrying := true },
              live := true, delivered := ds } := by
        simp [lossEventStep, clientConnectionLost, retryStep, hcase]
      obtain ⟨ih1, ih2⟩ := ih (r + 1) (min (d * p.growth) p.maxDelay) ds
        (by omega)
      constructor
      · intro hle
        obtain ⟨d', hrun⟩ := ih1 (by omega)
        refine ⟨d', ?_⟩
        show runLosses p k (lossEventStep p _) = _
        rw [hevent, hrun]
        have harith : r + 1 + k = r + (k + 1) := by omega
        rw [harith]
      · intro hlt
        obtain ⟨d', hrun⟩ := ih2 (by omega)
        refine ⟨d', ?_⟩
        show runLosses p k (lossEventStep p _) = _
        rw [hevent, hrun]

/-- C7: for a connection whose losses push `attempt_count` past
`max_retries`, the fixed terminal error payload is delivered to the
connection's callback exactly once (`delivered` ends as the one-element
list holding exactly `_reconnect_error_payload`), no further
reconnection attempt is scheduled afterwards (`live = false`, and by
`runLosses_dead` the run is inert from then on), while below the ceiling
nothing is delivered and reconnects keep being scheduled.  The loss
handlers are total functions delivering messages — connection loss
never surfaces as an exception. -/
theorem stream_c7_terminal (p : ReconnectParams) (n : ℕ)
    (hn : p.maxRetries < n) :
    (runLosses p n (freshRun p)).delivered = [reconnectErrorPayload] ∧
    (runLosses p n (freshRun p)).live = false ∧
    (∀ m, m ≤ p.maxRetries →
      (runLosses p m (freshRun p)).delivered = [] ∧
      (runLosses p m (freshRun p)).live = true) := by
  have hfr : freshRun p
      = { fstate := { retries := 0, delay := p.initialDelay,
                      continueTrying := true },
          live := true, delivered := [] } := rfl
  have h := runLosses_master p n 0 p.initialDelay [] (by omega)
  obtain ⟨d', hrun⟩ := h.2 (by omega)
  refine ⟨?_, ?_, ?_⟩
  · rw [hfr, hrun]
    simp
  · rw [hfr, hrun]
  · intro m hm
    have h2 := runLosses_master p m 0 p.initialDelay [] (by omega)
    obtain ⟨d'', hrun2⟩ := h2.1 (by omega)
    rw [hfr, hrun2]
    exact ⟨rfl, rfl⟩

/-- Witness for `stream_c7_terminal`: the Kraken constants
(`maxRetries = 30`) with 31 loss events. -/
theorem stream_c7_terminal_witness :
    (runLosses (krakenParams 3) 31 (freshRun (krakenParams 3))).delivered
      = [reconnectErrorPayload] ∧
    (runLosses (krakenParams 3) 31 (freshRun (krakenParams 3))).live
      = false := by
  have h := stream_c7_terminal (krakenParams 3) 31
    (by norm_num [krakenParams])
  exact ⟨h.1, h.2.1⟩

/-! ## Claim C8: `stop` mid-backoff and the pending reconnect -/

/-- C8 (counterexample): `stop_socket` called mid-backoff does not
prevent every subsequent automatic reconnect attempt.  The registered
connector has a reconnect call pending (scheduled by `retry()` after
the previous loss); `stop_socket` swaps the factory and disconnects —
a no-op while the connector is in its backoff state — but never cancels
the pending call, so the detached connector still has
`pendingReconnect = true`, and when the scheduled call fires it issues
a connection attempt (`connector.connect()`) after the stop. -/
theorem stop_c8_counterexample :
    midBackoffConn.pendingReconnect = true ∧
    midBackoffManager.conns "tick" = some midBackoffConn ∧
    (stopSocket midBackoffManager "tick").2
      = some { factory := ConnFactory.plain, pendingReconnect := true } ∧
    (fireReconnect { factory := ConnFactory.plain,
                     pendingReconnect := true }).2 = true := by
  refine ⟨rfl, ?_, ?_, rfl⟩
  · simp [midBackoffManager]
  · simp [stopSocket, midBackoffManager, midBackoffConn]

/-- C8 (amended): stopping a registered connection unregisters the
identifier (a later subscribe with the same identifier is admitted as a
fresh start, not refused as a duplicate) and swaps the connector's
factory for a plain non-reconnecting one, so no subsequent
connection-loss event on the detached connector schedules a new
reconnect or delivers anything; but a reconnect already scheduled
before the stop (mid-backoff) is not cancelled: it still fires exactly
one connection attempt after the stop — with the plain factory, so
nothing further is ever scheduled once it fires. -/
theorem stop_c8_amended (p : ReconnectParams) (m : SocketManager)
    (key : String) (c : Connector) (hc : m.conns key = some c)
    (payload' : String) :
    ((stopSocket m key).1.conns key = none) ∧
    ((stopSocket m key).2
      = some { factory := ConnFactory.plain,
               pendingReconnect := c.pendingReconnect }) ∧
    (∀ c', (c' : Connector).factory = ConnFactory.plain →
      connectorLossEvent p c' = (c', [])) ∧
    (∀ c', (stopSocket m key).2 = some c' →
      (fireReconnect c').2 = c.pendingReconnect ∧
      (fireReconnect c').1.pendingReconnect = false) ∧
    ((startSocket (stopSocket m key).1 key payload').1 ≠ some false) ∧
    (((startSocket (stopSocket m key).1 key payload').2.conns key).isSome
      = true) := by
  have hs : stopSocket m key
      = ({ m with conns := fun k => if k = key then none else m.conns k },
          some { c with factory := ConnFactory.plain }) := by
    simp [stopSocket, hc]
  refine ⟨?_, ?_, ?_, ?_, ?_, ?_⟩
  · rw [hs]
    simp
  · rw [hs]
  · intro c' hcf
    simp [connectorLossEvent, hcf]
  · intro c' hcc
    rw [hs] at hcc
    injection hcc with hcc
    rw [← hcc]
    constructor
    · cases hp : c.pendingReconnect
      · simp [fireReconnect, hp]
      · simp [fireReconnect, hp]
    · cases hp : c.pendingReconnect
      · simp [fireReconnect, hp]
      · simp [fireReconnect, hp]
  · rw [hs]
    simp [startSocket]
  · rw [hs]
    simp [startSocket]

/-- Witness for `stop_c8_amended` on the concrete mid-backoff
registry. -/
theorem stop_c8_amended_witness :
    ((stopSocket midBackoffManager "tick").1.conns "tick" = none) ∧
    ((startSocket (stopSocket midBackoffManager "tick").1 "tick"
      "sub").1 ≠ some false) := by
  have h := stop_c8_amended (krakenParams 3) midBackoffManager "tick"
    midBackoffConn (by simp [midBackoffManager]) "sub"
  exact ⟨h.1, h.2.2.2.2.1⟩

/-! ## Claim C9: duplicate subscribe is a no-op returning `False` -/

/-- C9: subscribing an identifier whose connection is already registered
returns `False` ("not started"), creates no second connection, and
leaves both registries exactly as they were; since `_conns` maps each
identifier to at most one connector, at most one live connection exists
per identifier. -/
theorem subscribe_c9_idempotent (m : SocketManager) (subName : String)
    (pair : List String) (payload : String)
    (hc : (m.conns (subName ++ "_" ++ pair.headI)).isSome = true) :
    subscribePublic m subName pair payload = (some false, m) ∧
    (∀ id_ p', (m.conns id_).isSome = true →
      startSocket m id_ p' = (some false, m)) := by
  have hgen : ∀ id_ p', (m.conns id_).isSome = true →
      startSocket m id_ p' = (some false, m) := by
    intro id_ p' h
    simp [startSocket, h]
  exact ⟨hgen _ _ hc, hgen⟩

/-- Witness for `subscribe_c9_idempotent`: the second identical
subscribe on a concrete registry returns `False` and changes nothing. -/
theorem subscribe_c9_idempotent_witness :
    subscribePublic (subscribePublic emptyManager "ticker" ["XBT"] "sub").2
      "ticker" ["XBT"] "sub"
      = (some false, (subscribePublic emptyManager "ticker" ["XBT"] "sub").2)
      := by
  have hc : (((subscribePublic emptyManager "ticker" ["XBT"] "sub").2).conns
      ("ticker" ++ "_" ++ (["XBT"] : List String).headI)).isSome = true := by
    simp [subscribePublic, startSocket, emptyManager]
  exact (subscribe_c9_idempotent
    (subscribePublic emptyManager "ticker" ["XBT"] "sub").2
    "ticker" ["XBT"] "sub" hc).1

/-! ## Claim C10: undecodable frames are silently dropped -/

/-- C10: a non-binary frame whose payload fails decoding produces no
callback invocation and no error, and every object that does reach the
callback from `onMessage` is the successful decoding of a non-binary
frame's payload. -/
theorem onMessage_c10_dropped {μ : Type} (decode : List ℕ → Option μ)
    (payload : List ℕ) (isBinary : Bool) :
    (decode payload = none → onMessage decode payload false = []) ∧
    (∀ ob ∈ onMessage decode payload isBinary,
      isBinary = false ∧ decode payload = some ob) := by
  constructor
  · intro h
    simp [onMessage, h]
  · intro ob hob
    cases isBinary with
    | true => simp [onMessage] at hob
    | false =>
      rcases hd : decode payload with _ | o
      · simp [onMessage, hd] at hob
      · simp [onMessage, hd] at hob
        subst hob
        exact ⟨rfl, rfl⟩

/-- Witness for `onMessage_c10_dropped`: a failing decoder yields no
callback invocation; a succeeding decoder's object reaches the
callback. -/
theorem onMessage_c10_dropped_witness :
    onMessage (fun _ => (none : Option ℕ)) [123] false = [] ∧
    (false = false ∧ (fun _ => (some 7 : Option ℕ)) [123] = some 7) := by
  constructor
  · exact (onMessage_c10_dropped (fun _ => none) [123] false).1 rfl
  · exact (onMessage_c10_dropped (fun _ => some 7) [123] false).2 7
      (by simp [onMessage])

end PyKraken
